import Mathlib

/-!
# Verification of the upload pipeline of `ai-document-analyzer`

Shallow embedding of `Backend/utils/file_validator.py` (the Classifier,
`validate_file_type`) and of `Backend/main.py` (the Streaming Store,
`save_file_to_disk`), with theorems settling the spec claims.

Bytes are modelled as `Nat`, byte strings as `List Nat`, Python strings as
Lean `String`.  The upload stream (`fastapi.UploadFile`) is modelled as its
full byte content together with a read position; `read n` returns the next
`n` bytes and advances the position, `seek 0` resets it.
-/

namespace DocAnalyzer

/-- `ALLOWED_MIME_TYPES` from `file_validator.py`. -/
def ALLOWED_MIME_TYPES : List String :=
  ["application/pdf",
   "application/vnd.openxmlformats-officedocument.wordprocessingml.document",
   "text/plain"]

/-- `ALLOWED_EXTENSIONS` from `file_validator.py`. -/
def ALLOWED_EXTENSIONS : List String := [".pdf", ".docx", ".txt"]

/-- `CHUNK_SIZE_FOR_VALIDATION` from `file_validator.py`. -/
def CHUNK_SIZE_FOR_VALIDATION : Nat := 2048

/-- `FILE_SIGNATURES` from `file_validator.py`: `b"%PDF"` maps to the PDF
MIME type and `b"PK\x03\x04"` to the Word-document MIME type; the dict
iterates in insertion order. -/
def FILE_SIGNATURES : List (List Nat × String) :=
  [([0x25, 0x50, 0x44, 0x46], "application/pdf"),
   ([0x50, 0x4B, 0x03, 0x04],
    "application/vnd.openxmlformats-officedocument.wordprocessingml.document")]

/-- The `fastapi.UploadFile` as the Classifier sees it: filename, the
client-declared `content_type` (`none` models Python `None`), the full byte
content, and the current stream position. -/
structure UploadFile where
  filename : String
  content_type : Option String
  content : List Nat
  pos : Nat
  deriving DecidableEq, Repr

/-- `await file.read(n)`: return up to `n` bytes from the current position
and advance the position by the number of bytes returned. -/
def UploadFile.read (f : UploadFile) (n : Nat) : List Nat × UploadFile :=
  let data := (f.content.drop f.pos).take n
  (data, { f with pos := f.pos + data.length })

/-- `await file.seek(0)`. -/
def UploadFile.seek0 (f : UploadFile) : UploadFile := { f with pos := 0 }

/-- ASCII lowering of a string, as Python `str.lower()` acts on the ASCII
range (the only characters our extensions use). -/
def lowerStr (s : String) : String := ⟨s.data.map Char.toLower⟩

/-- `pathlib.Path(filename).suffix`: the part of the final path component
from its last dot onward, provided that dot is neither the first nor the
last character of the component; otherwise the empty string. -/
def pathSuffix (filename : String) : String :=
  let name := (filename.data.reverse.takeWhile (fun c => c ≠ '/')).reverse
  match name.reverse.findIdx? (fun c => c = '.') with
  | some j =>
      let i := name.length - 1 - j
      if 0 < i && 0 < j then ⟨name.drop i⟩ else ""
  | none => ""

/-- Modelled from the Python standard library: `mimetypes.guess_type`
restricted to the extensions this repository's tables cover; the stdlib map
sends `.pdf`, `.docx` and `.txt` to exactly the three allowed MIME types
and is case-insensitive on the extension. -/
def guess_type (filename : String) : Option String :=
  let ext := lowerStr (pathSuffix filename)
  if ext = ".pdf" then some "application/pdf"
  else if ext = ".docx" then
    some "application/vnd.openxmlformats-officedocument.wordprocessingml.document"
  else if ext = ".txt" then some "text/plain"
  else none

/-- The `extension_to_mime` dict of the extension tier's last resort,
looked up with `.get(ext, "application/octet-stream")`. -/
def extension_to_mime : List (String × String) :=
  [(".pdf", "application/pdf"),
   (".docx",
    "application/vnd.openxmlformats-officedocument.wordprocessingml.document"),
   (".txt", "text/plain")]

/-- `extension_to_mime.get(file_extension, "application/octet-stream")`. -/
def lastResortMime (ext : String) : String :=
  ((extension_to_mime.find? (fun p => p.1 = ext)).map (fun p => p.2)).getD
    "application/octet-stream"

/-- The `magic` content-sniffing detector environment: either the import
failed (`MAGIC_AVAILABLE = False`) or it is available as a function from
the sniffed chunk to a detected MIME type, `none` modelling
`magic.from_buffer` raising an exception. -/
inductive MagicEnv where
  | unavailable
  | available (detect : List Nat → Option String)

/-- The `HTTPException(400, ...)` rejections `validate_file_type` can
raise to its caller. -/
inductive VError where
  /-- `"Invalid file type. Allowed file types: ..."` — extension gate. -/
  | badExtension
  deriving DecidableEq, Repr

/-- Outcome of `validate_file_type`: the validated MIME type together with
the upload's stream state on return, or a raised rejection. -/
inductive VResult where
  | ok (mime : String) (file : UploadFile)
  | error (e : VError)
  deriving DecidableEq, Repr

/-- The signature tier's loop over `FILE_SIGNATURES`: return the first
mapped MIME type whose signature is a prefix of the sniffed chunk and which
is in `ALLOWED_MIME_TYPES`. -/
def signatureScan (chunk : List Nat) : Option String :=
  (FILE_SIGNATURES.find? (fun p =>
      p.1.isPrefixOf chunk && ALLOWED_MIME_TYPES.contains p.2)).map
    (fun p => p.2)

/-- `file.content_type or mimetypes.guess_type(file.filename)[0]`:
Python's `or` treats both `None` and the empty string as falsy. -/
def declaredOrGuessed (f : UploadFile) : Option String :=
  match f.content_type with
  | some ct => if ct = "" then guess_type f.filename else some ct
  | none => guess_type f.filename

/-- The extension tier (third attempt) of `validate_file_type`: reject if
the extension is not allowed; otherwise trust
`file.content_type or mimetypes.guess_type(file.filename)[0]` when it is an
allowed type, else fall back to the fixed `extension_to_mime` table with an
`application/octet-stream` default. -/
def extensionTier (f : UploadFile) : VResult :=
  if ALLOWED_EXTENSIONS.contains (lowerStr (pathSuffix f.filename)) then
    match declaredOrGuessed f with
    | some m =>
        if ALLOWED_MIME_TYPES.contains m then .ok m f
        else .ok (lastResortMime (lowerStr (pathSuffix f.filename))) f
    | none => .ok (lastResortMime (lowerStr (pathSuffix f.filename))) f
  else .error .badExtension

/-- Second and third attempts of `validate_file_type`: read a sniffing
chunk, seek back to the start, then try the signature tier and fall through
to the extension tier. -/
def fallbackTiers (file : UploadFile) : VResult :=
  let r := file.read CHUNK_SIZE_FOR_VALIDATION
  let f2 := r.2.seek0
  match signatureScan r.1 with
  | some m => .ok m f2
  | none => extensionTier f2

/-- `validate_file_type` from `file_validator.py`.  In the magic tier the
source wraps everything in `try: ... except Exception`, so the
`HTTPException` it raises for a confidently detected but disallowed type is
itself caught by that handler, which seeks to 0 and continues with the
fallback tiers — the rejection never escapes. -/
def validate_file_type (env : MagicEnv) (file : UploadFile) : VResult :=
  match env with
  | .available detect =>
      let r := file.read CHUNK_SIZE_FOR_VALIDATION
      match detect r.1 with
      | some m =>
          if ALLOWED_MIME_TYPES.contains m then .ok m r.2.seek0
          else fallbackTiers r.2.seek0
      | none => fallbackTiers r.2.seek0
  | .unavailable => fallbackTiers file

/-! ## The Streaming Store: `save_file_to_disk` from `Backend/main.py` -/

/-- `MAX_FILE_SIZE = 15 * 1024 * 1024` from `main.py`. -/
def MAX_FILE_SIZE : Nat := 15 * 1024 * 1024

/-- `CHUNK_SIZE = 1024 * 1024` from `main.py`. -/
def CHUNK_SIZE : Nat := 1024 * 1024

/-- The exception raised inside the `try` block of `save_file_to_disk` and
caught by its blanket `except Exception` handler. -/
inductive InnerExc where
  /-- `HTTPException(413, "File too large. Maximum size is ... MB.")`,
  constructed with the configured limit in the message. -/
  | httpTooLarge
  /-- an `OSError` (or any other exception) from open/read/write. -/
  | ioError
  deriving DecidableEq, Repr

/-- The exception `save_file_to_disk` lets escape to its caller. -/
inductive SaveExc where
  /-- `user_folder.mkdir` failing before the `try` block: propagated raw. -/
  | mkdirError
  /-- `HTTPException(500, f"Could not save file: {e}")` raised by the
  `except Exception` handler, wrapping the inner exception — including the
  413 it itself raised for an oversized payload. -/
  | couldNotSave (inner : InnerExc)
  deriving DecidableEq, Repr

/-- The HTTP status code carried by an escaping exception (`none` for the
raw `OSError` from `mkdir`). -/
def SaveExc.statusCode : SaveExc → Option Nat
  | .mkdirError => none
  | .couldNotSave _ => some 500

/-- One interaction of the write loop with the outside world: a successful
`file.read` returning `data` (empty models end of stream) whose subsequent
`f.write` succeeds iff `writeOk`, or a read that raises. -/
inductive ReadEv where
  | ok (data : List Nat) (writeOk : Bool)
  | err
  deriving DecidableEq, Repr

instance {ε α : Type} [DecidableEq ε] [DecidableEq α] :
    DecidableEq (Except ε α) := fun a b =>
  match a, b with
  | .ok a, .ok b =>
      if h : a = b then .isTrue (by rw [h]) else .isFalse (by simp [h])
  | .error e, .error f =>
      if h : e = f then .isTrue (by rw [h]) else .isFalse (by simp [h])
  | .ok _, .error _ => .isFalse (by simp)
  | .error _, .ok _ => .isFalse (by simp)

/-- Observable outcome of `save_file_to_disk`: the returned byte count or
the escaping exception; the file at the computed destination path after the
call (`none` = no file exists there); and the successive contents of the
destination file (after creation and after each completed write). -/
structure SaveOutcome where
  result : Except SaveExc Nat
  disk : Option (List Nat)
  trace : List (List Nat)
  deriving DecidableEq, Repr

/-- The `while chunk := await file.read(CHUNK_SIZE)` loop of
`save_file_to_disk`, threading the running total and the destination file's
current content.  A falsy (empty) chunk ends the loop.  The running total
is bumped *before* the write; if it exceeds `maxSize` the source closes and
deletes the file and raises the 413, which the surrounding
`except Exception` catches (the file is already gone, so its
`os.remove`-if-exists is a no-op) and re-raises as the 500.  A read or
write failure reaches the handler directly: it deletes the partial file and
raises the 500. -/
def saveLoop (maxSize : Nat) :
    List ReadEv → Nat → List Nat → SaveOutcome
  | [], total, disk => ⟨.ok total, some disk, []⟩
  | .err :: _, _, _ => ⟨.error (.couldNotSave .ioError), none, []⟩
  | .ok data w :: rest, total, disk =>
      if data.isEmpty then ⟨.ok total, some disk, []⟩
      else
        let total := total + data.length
        if maxSize < total then ⟨.error (.couldNotSave .httpTooLarge), none, []⟩
        else if w then
          let disk := disk ++ data
          let out := saveLoop maxSize rest total disk
          ⟨out.result, out.disk, disk :: out.trace⟩
        else ⟨.error (.couldNotSave .ioError), none, []⟩

/-- `save_file_to_disk` from `main.py`, parameterised by the configured
size limit (the source reads the module constant `MAX_FILE_SIZE`) and by
whether `user_folder.mkdir` and `aiofiles.open` succeed.  `mkdir` failure
propagates before any file is created; `open` failure is caught by the
handler, which finds no file at the path and raises the 500. -/
def save_file_to_disk (maxSize : Nat) (mkdirOk openOk : Bool)
    (reads : List ReadEv) : SaveOutcome :=
  if mkdirOk then
    if openOk then
      let out := saveLoop maxSize reads 0 []
      ⟨out.result, out.disk, [] :: out.trace⟩
    else ⟨.error (.couldNotSave .ioError), none, []⟩
  else ⟨.error .mkdirError, none, []⟩

/-! ## Helper lemmas about the Classifier -/

theorem mem_of_contains {l : List String} {a : String}
    (h : l.contains a = true) : a ∈ l := by
  simpa using h

theorem allowed_ne_octet {a : String} (h : a ∈ ALLOWED_MIME_TYPES) :
    a ≠ "application/octet-stream" := by
  simp only [ALLOWED_MIME_TYPES, List.mem_cons, List.not_mem_nil, or_false]
    at h
  rcases h with h | h | h <;> subst h <;> decide

theorem lastResortMime_mem {ext : String}
    (h : ALLOWED_EXTENSIONS.contains ext = true) :
    lastResortMime ext ∈ ALLOWED_MIME_TYPES := by
  have hm : ext ∈ ALLOWED_EXTENSIONS := mem_of_contains h
  simp only [ALLOWED_EXTENSIONS, List.mem_cons, List.not_mem_nil, or_false]
    at hm
  rcases hm with h1 | h1 | h1 <;> subst h1 <;> decide

theorem signatureScan_mem {c : List Nat} {m : String}
    (h : signatureScan c = some m) : m ∈ ALLOWED_MIME_TYPES := by
  unfold signatureScan at h
  rw [Option.map_eq_some'] at h
  obtain ⟨p, hp, rfl⟩ := h
  have hsat := List.find?_some hp
  simp only [Bool.and_eq_true] at hsat
  exact mem_of_contains hsat.2

theorem extensionTier_ok {f f' : UploadFile} {m : String}
    (h : extensionTier f = .ok m f') :
    (m ∈ ALLOWED_MIME_TYPES ∧ m ≠ "application/octet-stream") ∧ f' = f := by
  unfold extensionTier at h
  split at h
  · rename_i hext
    split at h
    · rename_i m0 hdg
      split at h
      · rename_i hc
        cases h
        exact ⟨⟨mem_of_contains hc, allowed_ne_octet (mem_of_contains hc)⟩,
          rfl⟩
      · cases h
        exact ⟨⟨lastResortMime_mem hext,
          allowed_ne_octet (lastResortMime_mem hext)⟩, rfl⟩
    · cases h
      exact ⟨⟨lastResortMime_mem hext,
        allowed_ne_octet (lastResortMime_mem hext)⟩, rfl⟩
  · simp at h

theorem fallbackTiers_ok {f f' : UploadFile} {m : String}
    (h : fallbackTiers f = .ok m f') :
    (m ∈ ALLOWED_MIME_TYPES ∧ m ≠ "application/octet-stream") ∧
      f'.pos = 0 := by
  simp only [fallbackTiers, UploadFile.read, UploadFile.seek0] at h
  split at h
  · rename_i m0 hsig
    cases h
    exact ⟨⟨signatureScan_mem hsig, allowed_ne_octet (signatureScan_mem hsig)⟩,
      rfl⟩
  · have := extensionTier_ok h
    exact ⟨this.1, by rw [this.2]⟩

theorem validate_ok_props {env : MagicEnv} {f f' : UploadFile} {m : String}
    (h : validate_file_type env f = .ok m f') :
    (m ∈ ALLOWED_MIME_TYPES ∧ m ≠ "application/octet-stream") ∧
      f'.pos = 0 := by
  cases env with
  | unavailable =>
      simp only [validate_file_type] at h
      exact fallbackTiers_ok h
  | available detect =>
      simp only [validate_file_type, UploadFile.read, UploadFile.seek0] at h
      split at h
      · rename_i m0 hdet
        split at h
        · rename_i hc
          cases h
          exact ⟨⟨mem_of_contains hc, allowed_ne_octet (mem_of_contains hc)⟩,
            rfl⟩
        · exact fallbackTiers_ok h
      · exact fallbackTiers_ok h

/-! ## Claim theorems -/

/-- C1: whenever `validate_file_type` returns successfully — via any of its
three tiers — the returned MIME type is in the fixed allowed set, and in
particular the generic `application/octet-stream` final fallback is never
returned. -/
theorem validate_file_type_returns_allowed (env : MagicEnv)
    (f f' : UploadFile) (m : String)
    (h : validate_file_type env f = .ok m f') :
    m ∈ ALLOWED_MIME_TYPES ∧ m ≠ "application/octet-stream" :=
  (validate_ok_props h).1

theorem validate_file_type_returns_allowed_witness :
    "text/plain" ∈ ALLOWED_MIME_TYPES ∧
      "text/plain" ≠ "application/octet-stream" :=
  validate_file_type_returns_allowed .unavailable
    ⟨"a.txt", none, [], 0⟩ ⟨"a.txt", none, [], 0⟩ "text/plain" (by decide)

/-- C2: the claim fails on the code.  When the detector is available and
confidently detects the disallowed type `image/png`, the ensuing
`HTTPException` is caught by the magic tier's own `except Exception`
handler, and the upload falls through to the weaker tiers, where the
`.txt` extension and the declared `text/plain` content type get it
accepted. -/
theorem magic_disallowed_detection_falls_through :
    validate_file_type (.available fun _ => some "image/png")
        ⟨"notes.txt", some "text/plain", [104, 105], 0⟩
      = .ok "text/plain" ⟨"notes.txt", some "text/plain", [104, 105], 0⟩ := by
  decide

/-- C7: on every successful return of `validate_file_type`, whichever tier
produced the result, the upload stream's position has been restored to
byte 0. -/
theorem validate_file_type_restores_position (env : MagicEnv)
    (f f' : UploadFile) (m : String)
    (h : validate_file_type env f = .ok m f') : f'.pos = 0 :=
  (validate_ok_props h).2

theorem validate_file_type_restores_position_witness :
    UploadFile.pos ⟨"doc.pdf", none, [0x25, 0x50, 0x44, 0x46], 0⟩ = 0 :=
  validate_file_type_restores_position .unavailable
    ⟨"doc.pdf", none, [0x25, 0x50, 0x44, 0x46], 2⟩
    ⟨"doc.pdf", none, [0x25, 0x50, 0x44, 0x46], 0⟩
    "application/pdf" (by decide)

/-- C8: with the sniffing detector unavailable, any upload whose content
begins with the ZIP signature `PK\x03\x04` is classified by the signature
tier as the Word-document MIME type, regardless of the filename and its
extension. -/
theorem zip_signature_classified_as_docx (f : UploadFile) (rest : List Nat)
    (hpos : f.pos = 0)
    (hc : f.content = [0x50, 0x4B, 0x03, 0x04] ++ rest) :
    validate_file_type .unavailable f
      = .ok
        "application/vnd.openxmlformats-officedocument.wordprocessingml.document"
        { f with pos := 0 } := by
  simp only [validate_file_type, fallbackTiers, UploadFile.read,
    UploadFile.seek0, hc, hpos, List.drop_zero, CHUNK_SIZE_FOR_VALIDATION]
  rw [List.take_append_eq_append_take]
  simp [signatureScan, FILE_SIGNATURES, List.find?, List.isPrefixOf,
    ALLOWED_MIME_TYPES]

theorem zip_signature_classified_as_docx_witness :
    validate_file_type .unavailable ⟨"malware.pdf", none, [0x50, 0x4B, 0x03, 0x04, 9], 0⟩
      = .ok
        "application/vnd.openxmlformats-officedocument.wordprocessingml.document"
        ⟨"malware.pdf", none, [0x50, 0x4B, 0x03, 0x04, 9], 0⟩ :=
  zip_signature_classified_as_docx
    ⟨"malware.pdf", none, [0x50, 0x4B, 0x03, 0x04, 9], 0⟩ [9] rfl rfl

/-! ## Helper lemmas about the Streaming Store -/

/-- A stream that is read successfully to exhaustion and whose chunks are
all written without an I/O error. -/
def allOkReads (chunks : List (List Nat)) : List ReadEv :=
  chunks.map fun d => .ok d true

/-- Total number of bytes in a chunked stream. -/
def chunksLen (chunks : List (List Nat)) : Nat :=
  (chunks.map List.length).sum

theorem saveLoop_error_disk {maxSize : Nat} {e : SaveExc} :
    ∀ {reads : List ReadEv} {total : Nat} {disk : List Nat},
    (saveLoop maxSize reads total disk).result = .error e →
    (saveLoop maxSize reads total disk).disk = none := by
  intro reads
  induction reads with
  | nil => intro total disk h; simp [saveLoop] at h
  | cons ev rest ih =>
      intro total disk h
      cases ev with
      | err => simp [saveLoop]
      | ok data w =>
          cases hde : data.isEmpty with
          | true => simp [saveLoop, hde] at h
          | false =>
              rcases Nat.lt_or_ge maxSize (total + data.length) with hlt | hge
              · simp [saveLoop, hde, hlt]
              · cases w with
                | false => simp [saveLoop, hde, Nat.not_lt.mpr hge]
                | true =>
                    simp [saveLoop, hde, Nat.not_lt.mpr hge] at h ⊢
                    exact ih h

theorem saveLoop_within {maxSize : Nat} :
    ∀ (chunks : List (List Nat)) (total : Nat) (disk : List Nat),
    (∀ d ∈ chunks, d ≠ []) → total + chunksLen chunks ≤ maxSize →
    (saveLoop maxSize (allOkReads chunks) total disk).result
      = .ok (total + chunksLen chunks) := by
  intro chunks
  induction chunks with
  | nil => intro total disk _ _; simp [saveLoop, allOkReads, chunksLen]
  | cons d rest ih =>
      intro total disk hne hle
      have hd : d ≠ [] := hne d (List.mem_cons_self d rest)
      have hde : d.isEmpty = false := by simpa using hd
      have hlen : chunksLen (d :: rest) = d.length + chunksLen rest := by
        simp [chunksLen]
      rw [hlen] at hle
      have hnot : ¬ maxSize < total + d.length := by omega
      have := ih (total + d.length) (disk ++ d)
        (fun x hx => hne x (List.mem_cons_of_mem d hx)) (by omega)
      simp only [allOkReads, List.map_cons] at this ⊢
      simp [saveLoop, hde, hnot, this, hlen, Nat.add_assoc]


theorem saveLoop_over {maxSize : Nat} :
    ∀ (chunks : List (List Nat)) (total : Nat) (disk : List Nat),
    (∀ d ∈ chunks, d ≠ []) → total ≤ maxSize →
    maxSize < total + chunksLen chunks →
    (saveLoop maxSize (allOkReads chunks) total disk).result
      = .error (.couldNotSave .httpTooLarge) := by
  intro chunks
  induction chunks with
  | nil =>
      intro total disk _ hle hlt
      simp [chunksLen] at hlt
      omega
  | cons d rest ih =>
      intro total disk hne hle hlt
      have hd : d ≠ [] := hne d (List.mem_cons_self d rest)
      have hde : d.isEmpty = false := by simpa using hd
      have hlen : chunksLen (d :: rest) = d.length + chunksLen rest := by
        simp [chunksLen]
      rw [hlen] at hlt
      rcases Nat.lt_or_ge maxSize (total + d.length) with hcase | hcase
      · simp [allOkReads, saveLoop, hde, hcase]
      · have := ih (total + d.length) (disk ++ d)
          (fun x hx => hne x (List.mem_cons_of_mem d hx)) hcase (by omega)
        simp only [allOkReads, List.map_cons] at this ⊢
        simp [saveLoop, hde, Nat.not_lt.mpr hcase, this]

theorem saveLoop_trace_le {maxSize : Nat} :
    ∀ (reads : List ReadEv) (total : Nat) (disk : List Nat),
    disk.length ≤ total →
    ∀ d ∈ (saveLoop maxSize reads total disk).trace, d.length ≤ maxSize := by
  intro reads
  induction reads with
  | nil => intro total disk _ d hd; simp [saveLoop] at hd
  | cons ev rest ih =>
      intro total disk hinv d hd
      cases ev with
      | err => simp [saveLoop] at hd
      | ok data w =>
          cases hde : data.isEmpty with
          | true => simp [saveLoop, hde] at hd
          | false =>
              rcases Nat.lt_or_ge maxSize (total + data.length) with hlt | hge
              · simp [saveLoop, hde, hlt] at hd
              · cases w with
                | false => simp [saveLoop, hde, Nat.not_lt.mpr hge] at hd
                | true =>
                    simp [saveLoop, hde, Nat.not_lt.mpr hge] at hd
                    rcases hd with rfl | hd
                    · simp only [List.length_append]
                      omega
                    · exact ih (total + data.length) (disk ++ data)
                        (by simp only [List.length_append]; omega) d hd

/-! ## Claim theorems about the Streaming Store -/

/-- C3: whenever `save_file_to_disk` fails — oversized payload, read or
write error, failed open, failed directory creation — no file exists at
the computed destination path afterwards, so a repeated failing upload
leaves no residue either. -/
theorem save_file_to_disk_error_no_file (maxSize : Nat)
    (mkdirOk openOk : Bool) (reads : List ReadEv) (e : SaveExc)
    (h : (save_file_to_disk maxSize mkdirOk openOk reads).result
      = .error e) :
    (save_file_to_disk maxSize mkdirOk openOk reads).disk = none := by
  cases mkdirOk with
  | false => simp [save_file_to_disk]
  | true =>
      cases openOk with
      | false => simp [save_file_to_disk]
      | true =>
          simp only [save_file_to_disk, if_true] at h ⊢
          exact saveLoop_error_disk h

theorem save_file_to_disk_error_no_file_witness :
    (save_file_to_disk 4 true true [.ok [1, 2, 3, 4, 5] true]).disk
      = none :=
  save_file_to_disk_error_no_file 4 true true [.ok [1, 2, 3, 4, 5] true]
    (.couldNotSave .httpTooLarge) (by decide)

/-- C4: the claim fails on the code.  On an oversized payload the source
constructs the 413 "File too large" rejection, but raises it inside its
own `try` block, whose blanket `except Exception` catches it and re-raises
`HTTPException(500, "Could not save file: ...")` — so the error that
escapes to the caller is the server-attributable 500, not the
client-attributable 413 the code and spec intend. -/
theorem save_too_large_escapes_as_500 :
    (save_file_to_disk 4 true true [.ok [1, 2, 3, 4, 5] true]).result
      = .error (.couldNotSave .httpTooLarge)
    ∧ SaveExc.statusCode (.couldNotSave .httpTooLarge) = some 500 := by
  decide

/-- C5: the size ceiling is strict.  With every read succeeding and every
chunk written without error, a stream totalling at most `maxSize` bytes is
accepted with the exact byte count, while a stream totalling
`maxSize + 1` or more bytes aborts with the too-large failure. -/
theorem save_size_limit_strict (maxSize : Nat) (chunks : List (List Nat))
    (hne : ∀ d ∈ chunks, d ≠ []) :
    (chunksLen chunks ≤ maxSize →
      (save_file_to_disk maxSize true true (allOkReads chunks)).result
        = .ok (chunksLen chunks))
    ∧ (maxSize + 1 ≤ chunksLen chunks →
      (save_file_to_disk maxSize true true (allOkReads chunks)).result
        = .error (.couldNotSave .httpTooLarge)) := by
  constructor
  · intro hle
    have := @saveLoop_within maxSize chunks 0 [] hne (by omega)
    simp only [Nat.zero_add] at this
    simp [save_file_to_disk, this]
  · intro hlt
    have := @saveLoop_over maxSize chunks 0 [] hne (Nat.zero_le _) (by omega)
    simp [save_file_to_disk, this]

theorem save_size_limit_strict_witness :
    (save_file_to_disk 3 true true (allOkReads [[1, 2], [3, 4]])).result
      = .error (.couldNotSave .httpTooLarge) :=
  (save_size_limit_strict 3 [[1, 2], [3, 4]] (by decide)).2 (by decide)

/-- C6: throughout the write loop, the destination file never holds more
than `maxSize` bytes: the running total is bumped before the write and a
chunk that would push it over the limit is never written. -/
theorem save_write_budget (maxSize : Nat) (mkdirOk openOk : Bool)
    (reads : List ReadEv) (d : List Nat)
    (h : d ∈ (save_file_to_disk maxSize mkdirOk openOk reads).trace) :
    d.length ≤ maxSize := by
  cases mkdirOk with
  | false => simp [save_file_to_disk] at h
  | true =>
      cases openOk with
      | false => simp [save_file_to_disk] at h
      | true =>
          simp [save_file_to_disk] at h
          rcases h with rfl | h
          · simp
          · exact saveLoop_trace_le reads 0 [] (Nat.le_refl 0) d h

theorem save_write_budget_witness :
    ([1, 2] : List Nat).length ≤ 3 :=
  save_write_budget 3 true true [.ok [1, 2] true] [1, 2] (by decide)

/-! ## Extension-tier lemmas for C9 and C10 -/

theorem contains_of_mem {l : List String} {a : String} (h : a ∈ l) :
    l.contains a = true := by
  simpa using h

theorem guess_type_of_allowed {fn : String}
    (h : ALLOWED_EXTENSIONS.contains (lowerStr (pathSuffix fn)) = true) :
    guess_type fn = some (lastResortMime (lowerStr (pathSuffix fn))) := by
  have hm := mem_of_contains h
  simp only [ALLOWED_EXTENSIONS, List.mem_cons, List.not_mem_nil, or_false]
    at hm
  simp only [guess_type]
  rcases hm with h1 | h1 | h1 <;> rw [h1] <;> decide

/-- With the detector unavailable and no signature matching the sniffed
chunk, `validate_file_type` is the extension tier on the rewound stream. -/
theorem validate_unavail_eq (f : UploadFile)
    (hsig : signatureScan
      ((f.content.drop f.pos).take CHUNK_SIZE_FOR_VALIDATION) = none) :
    validate_file_type .unavailable f
      = extensionTier ⟨f.filename, f.content_type, f.content, 0⟩ := by
  simp only [validate_file_type, fallbackTiers, UploadFile.read,
    UploadFile.seek0, hsig]

theorem extensionTier_declared {f : UploadFile} {ct : String}
    (hcty : f.content_type = some ct) (h0 : ct ≠ "")
    (hallow : ALLOWED_MIME_TYPES.contains ct = true)
    (hext : ALLOWED_EXTENSIONS.contains (lowerStr (pathSuffix f.filename))
      = true) :
    extensionTier f = .ok ct f := by
  simp [extensionTier, declaredOrGuessed, hcty, h0,
    mem_of_contains hallow, mem_of_contains hext]

theorem extensionTier_amended {f : UploadFile}
    (hext : ALLOWED_EXTENSIONS.contains (lowerStr (pathSuffix f.filename))
      = true)
    (hct : ∀ ct, f.content_type = some ct → ct ≠ "" →
      ALLOWED_MIME_TYPES.contains ct = true →
      ct = lastResortMime (lowerStr (pathSuffix f.filename))) :
    extensionTier f
      = .ok (lastResortMime (lowerStr (pathSuffix f.filename))) f := by
  have hguess := guess_type_of_allowed hext
  have hlastc : ALLOWED_MIME_TYPES.contains
      (lastResortMime (lowerStr (pathSuffix f.filename))) = true :=
    contains_of_mem (lastResortMime_mem hext)
  have hdgCases : declaredOrGuessed f
        = some (lastResortMime (lowerStr (pathSuffix f.filename))) ∨
      ∃ ct, declaredOrGuessed f = some ct ∧
        ALLOWED_MIME_TYPES.contains ct = false := by
    cases hcty : f.content_type with
    | none => exact .inl (by simp [declaredOrGuessed, hcty, hguess])
    | some ct =>
        by_cases h0 : ct = ""
        · exact .inl (by simp [declaredOrGuessed, hcty, h0, hguess])
        · by_cases hallow : ALLOWED_MIME_TYPES.contains ct = true
          · refine .inl ?_
            rw [← hct ct hcty h0 hallow]
            simp [declaredOrGuessed, hcty, h0]
          · exact .inr ⟨ct, by simp [declaredOrGuessed, hcty, h0],
              by simpa using hallow⟩
  rcases hdgCases with hdg | ⟨ct, hdg, hctf⟩
  · simp [extensionTier, hdg, mem_of_contains hlastc, mem_of_contains hext]
  · have hnm : ct ∉ ALLOWED_MIME_TYPES := by
      intro hm
      rw [contains_of_mem hm] at hctf
      exact absurd hctf (by simp)
    simp [extensionTier, hdg, hnm, mem_of_contains hext]

/-! ## Claim theorems C9 and C10 -/

/-- C9: the claim as frozen is refuted — a zero-byte `notes.txt` whose
client-declared content type is the allowed `application/pdf` is classified
as `application/pdf`, not as the extension-mapped `text/plain`, because the
extension tier trusts an allowed declared type before consulting the
extension table. -/
theorem zero_byte_declared_overrides_extension :
    validate_file_type .unavailable
        ⟨"notes.txt", some "application/pdf", [], 0⟩
      = .ok "application/pdf" ⟨"notes.txt", some "application/pdf", [], 0⟩
    ∧ lastResortMime (lowerStr (pathSuffix "notes.txt")) = "text/plain" := by
  decide

/-- C9 (amended): a zero-byte upload with an allowed extension, sniffing
unavailable, and no client-declared content type that is an allowed MIME
type different from the extension-mapped one, falls through the content and
signature tiers (the empty prefix matches no signature) and is classified
with the extension-mapped MIME type; and the Streaming Store on the empty
stream performs zero write iterations, returning `bytes_written = 0`, a
valid (empty) file at the destination path, and a trace holding only the
freshly created empty file. -/
theorem zero_byte_upload_classified_and_saved (f : UploadFile)
    (maxSize : Nat) (hc : f.content = []) (hpos : f.pos = 0)
    (hext : ALLOWED_EXTENSIONS.contains (lowerStr (pathSuffix f.filename))
      = true)
    (hct : ∀ ct, f.content_type = some ct → ct ≠ "" →
      ALLOWED_MIME_TYPES.contains ct = true →
      ct = lastResortMime (lowerStr (pathSuffix f.filename))) :
    validate_file_type .unavailable f
      = .ok (lastResortMime (lowerStr (pathSuffix f.filename)))
          ⟨f.filename, f.content_type, f.content, 0⟩
    ∧ (save_file_to_disk maxSize true true []).result = .ok 0
    ∧ (save_file_to_disk maxSize true true []).disk = some []
    ∧ (save_file_to_disk maxSize true true []).trace = [[]] := by
  refine ⟨?_, by simp [save_file_to_disk, saveLoop],
    by simp [save_file_to_disk, saveLoop],
    by simp [save_file_to_disk, saveLoop]⟩
  have hsig : signatureScan
      ((f.content.drop f.pos).take CHUNK_SIZE_FOR_VALIDATION) = none := by
    rw [hc, hpos]
    decide
  rw [validate_unavail_eq f hsig]
  exact extensionTier_amended hext hct

theorem zero_byte_upload_classified_and_saved_witness :
    validate_file_type .unavailable ⟨"a.txt", none, [], 0⟩
      = .ok (lastResortMime (lowerStr (pathSuffix "a.txt")))
          ⟨"a.txt", none, [], 0⟩
    ∧ (save_file_to_disk 7 true true []).result = .ok 0
    ∧ (save_file_to_disk 7 true true []).disk = some []
    ∧ (save_file_to_disk 7 true true []).trace = [[]] :=
  zero_byte_upload_classified_and_saved ⟨"a.txt", none, [], 0⟩ 7 rfl rfl
    (by decide) (fun ct h _ _ => Option.noConfusion h)

/-- C10: in the extension tier, once the filename extension is allowed, a
nonempty client-declared content type that is any member of the allowed
MIME set is returned as the classification result even when it contradicts
the extension. -/
theorem declared_type_trusted_over_extension (f : UploadFile) (ct : String)
    (hcty : f.content_type = some ct) (h0 : ct ≠ "")
    (hallow : ALLOWED_MIME_TYPES.contains ct = true)
    (hext : ALLOWED_EXTENSIONS.contains (lowerStr (pathSuffix f.filename))
      = true)
    (hsig : signatureScan
      ((f.content.drop f.pos).take CHUNK_SIZE_FOR_VALIDATION) = none) :
    validate_file_type .unavailable f
      = .ok ct ⟨f.filename, f.content_type, f.content, 0⟩ := by
  rw [validate_unavail_eq f hsig]
  exact extensionTier_declared hcty h0 hallow hext

theorem declared_type_trusted_over_extension_witness :
    validate_file_type .unavailable
        ⟨"notes.txt", some "application/pdf", [104, 105], 0⟩
      = .ok "application/pdf"
          ⟨"notes.txt", some "application/pdf", [104, 105], 0⟩ :=
  declared_type_trusted_over_extension
    ⟨"notes.txt", some "application/pdf", [104, 105], 0⟩ "application/pdf"
    rfl (by decide) (by decide) (by decide) (by decide)

end DocAnalyzer
